import Mathlib

/-!
Shallow embedding of the `exambigdata` CSV-ingestion scripts
(`sqlite_script.py`, `postgresql_script.py`, `mongodb_script.py`,
`duckdb_script.py`).

Column names and field values are represented as `List Char`; Python's
ASCII-range `str.lower()` is modelled by `Char.toLower` (which lower-cases
exactly the basic latin letters), fallible operations return `Except` or
`Option`, and the MongoDB document is an insertion-ordered key/value list
with Python-`dict` update semantics.
-/

namespace BigData

/-- Python `name.lower()` over a name represented as a list of characters. -/
def pyLower (s : List Char) : List Char := s.map Char.toLower

/-- Python `name.replace(' ', '_')`: every space character (U+0020) is
replaced, one underscore per space. -/
def replaceSpaces (s : List Char) : List Char :=
  s.map (fun c => if c = ' ' then '_' else c)

/-- The common sanitisation step `col_name.lower().replace(' ', '_')` shared by
`sqlite_script.py` (`create_table`, `load_csv_to_database`) and
`postgresql_script.py` (`create_table`, `load_csv_to_database`). -/
def baseName (raw : List Char) : List Char := replaceSpaces (pyLower raw)

/-- The `RESERVED_WORDS` list of `sqlite_script.py` (lines 30-46). -/
def RESERVED_WORDS : List (List Char) :=
  ([ "abort", "action", "add", "after", "all", "alter", "analyze", "and", "as", "asc",
     "attach", "autoincrement", "before", "begin", "between", "by", "cascade", "case",
     "cast", "check", "collate", "column", "commit", "conflict", "constraint", "create",
     "cross", "current_date", "current_time", "current_timestamp", "database", "default",
     "deferrable", "deferred", "delete", "desc", "detach", "distinct", "drop", "each",
     "else", "end", "escape", "except", "exclusive", "exists", "explain", "fail", "for",
     "foreign", "from", "full", "glob", "group", "having", "if", "ignore", "immediate",
     "in", "index", "indexed", "initially", "inner", "insert", "instead", "intersect",
     "into", "is", "isnull", "join", "key", "left", "like", "limit", "match", "natural",
     "no", "not", "notnull", "null", "of", "offset", "on", "or", "order", "outer", "plan",
     "pragma", "primary", "query", "raise", "recursive", "references", "regexp", "reindex",
     "release", "rename", "replace", "restrict", "right", "rollback", "row", "savepoint",
     "select", "set", "table", "temp", "temporary", "then", "to", "transaction", "trigger",
     "union", "unique", "update", "using", "vacuum", "values", "view", "virtual", "when",
     "where", "with", "without" ] : List String).map String.toList

/-- The fixed disambiguating suffix `"_col"` of `sqlite_script.py`. -/
def colSuffix : List Char := "_col".toList

/-- The SQLite column-name sanitiser (`sqlite_script.py` lines 102-112 and
146-154): lower-case, replace spaces, then append `_col` when the result's
lower-cased form occurs in the lower-cased `RESERVED_WORDS` list. -/
def sqliteSafeName (raw : List Char) : List Char :=
  if pyLower (baseName raw) ∈ RESERVED_WORDS.map pyLower then
    baseName raw ++ colSuffix
  else
    baseName raw

/-- The PostgreSQL column-name sanitiser (`postgresql_script.py` line 70):
only lower-casing and space replacement, no reserved-word handling. -/
def pgSafeName (raw : List Char) : List Char := replaceSpaces (pyLower raw)

/-- Modelled from the spec's words, for comparison with the
source sanitiser: "replace each whitespace run with a single underscore".
The flag records whether the previous character belonged to a whitespace run. -/
def collapseWsSpec (prevWs : Bool) : List Char → List Char
  | [] => []
  | c :: cs =>
    if c.isWhitespace then
      if prevWs then collapseWsSpec true cs else '_' :: collapseWsSpec true cs
    else
      c :: collapseWsSpec false cs

/-- The spec-side sanitisation step: lower-case, then collapse each whitespace
run to one underscore (spec section 4.2, modelled from its words). -/
def specBaseName (raw : List Char) : List Char := collapseWsSpec false (pyLower raw)

theorem toLower_eq_self {c : Char} (h : ¬(c.toNat ≥ 65 ∧ c.toNat ≤ 90)) :
    c.toLower = c := by
  simp only [Char.toLower]
  rw [if_neg h]

theorem toLower_toNat_of_upper {c : Char} (h1 : c.toNat ≥ 65) (h2 : c.toNat ≤ 90) :
    c.toLower.toNat = c.toNat + 32 := by
  have hc : c.toLower = Char.ofNat (c.toNat + 32) := by
    simp only [Char.toLower]
    rw [if_pos ⟨h1, h2⟩]
  rw [hc]
  generalize hm : c.toNat = m at h1 h2
  interval_cases m <;> decide

theorem toLower_idem (c : Char) : c.toLower.toLower = c.toLower := by
  by_cases h : c.toNat ≥ 65 ∧ c.toNat ≤ 90
  · obtain ⟨h1, h2⟩ := h
    have hn := toLower_toNat_of_upper h1 h2
    apply toLower_eq_self
    simp only [Char.toNat] at h1 h2 hn ⊢
    omega
  · rw [toLower_eq_self h, toLower_eq_self h]

theorem toLower_eq_space_iff (c : Char) : c.toLower = ' ' ↔ c = ' ' := by
  constructor
  · intro h
    by_cases hu : c.toNat ≥ 65 ∧ c.toNat ≤ 90
    · exfalso
      have hn := toLower_toNat_of_upper hu.1 hu.2
      rw [h] at hn
      have hsp : (' ' : Char).toNat = 32 := by decide
      rw [hsp] at hn
      obtain ⟨h1, h2⟩ := hu
      simp only [Char.toNat] at h1 h2 hn
      omega
    · rwa [toLower_eq_self hu] at h
  · intro h
    subst h
    decide

/-- The per-character effect of `lower` followed by `replace(' ', '_')`. -/
def normChar (c : Char) : Char := if c.toLower = ' ' then '_' else c.toLower

theorem baseName_eq_map (s : List Char) : baseName s = s.map normChar := by
  simp only [baseName, pyLower, replaceSpaces, List.map_map]
  rfl

theorem normChar_ne_space (c : Char) : normChar c ≠ ' ' := by
  unfold normChar
  by_cases h : c.toLower = ' '
  · rw [if_pos h]; decide
  · rw [if_neg h]; exact h

theorem toLower_normChar (c : Char) : (normChar c).toLower = normChar c := by
  unfold normChar
  by_cases h : c.toLower = ' '
  · rw [if_pos h]; decide
  · rw [if_neg h]; exact toLower_idem c

theorem normChar_idem (c : Char) : normChar (normChar c) = normChar c := by
  show (if (normChar c).toLower = ' ' then '_' else (normChar c).toLower) = normChar c
  rw [toLower_normChar, if_neg (normChar_ne_space c)]

theorem normChar_eq_if (c : Char) :
    normChar c = if c = ' ' then '_' else c.toLower := by
  unfold normChar
  by_cases h : c = ' '
  · subst h; rfl
  · rw [if_neg h, if_neg (fun hl => h ((toLower_eq_space_iff c).1 hl))]

theorem baseName_idem (s : List Char) : baseName (baseName s) = baseName s := by
  rw [baseName_eq_map, baseName_eq_map]
  induction s with
  | nil => rfl
  | cons c cs ih =>
    simp only [List.map_cons]
    rw [normChar_idem, ih]

theorem pyLower_baseName (s : List Char) : pyLower (baseName s) = baseName s := by
  rw [baseName_eq_map]
  unfold pyLower
  induction s with
  | nil => rfl
  | cons c cs ih =>
    simp only [List.map_cons]
    rw [toLower_normChar, ih]

theorem baseName_append (a b : List Char) :
    baseName (a ++ b) = baseName a ++ baseName b := by
  simp [baseName_eq_map]

theorem pyLower_append (a b : List Char) :
    pyLower (a ++ b) = pyLower a ++ pyLower b := by
  simp [pyLower]

theorem space_not_mem_baseName (s : List Char) : ' ' ∉ baseName s := by
  rw [baseName_eq_map]
  intro h
  rcases List.mem_map.1 h with ⟨c, _, hc⟩
  exact normChar_ne_space c hc

set_option maxRecDepth 100000

theorem reserved_map_pyLower : RESERVED_WORDS.map pyLower = RESERVED_WORDS := by decide

theorem reserved_append_colSuffix :
    ∀ w ∈ RESERVED_WORDS, w ++ colSuffix ∉ RESERVED_WORDS := by decide

theorem baseName_colSuffix : baseName colSuffix = colSuffix := by decide

theorem pyLower_colSuffix : pyLower colSuffix = colSuffix := by decide

/-- A data row: the positional field values of one CSV record. -/
abbrev Row := List (List Char)

/-- The per-row insert loop shared by `sqlite_script.py` (lines 167-169) and
`postgresql_script.py` (lines 108-110): `cursor.execute(insert_sql, row)`
succeeds only when the row supplies exactly one value per placeholder (one
placeholder per header column); otherwise the driver raises, the count of
rows committed so far is reported, and the load aborts. -/
def loadRowsAux (ncols : Nat) : List Row → Nat → Except Nat Nat
  | [], total => Except.ok total
  | r :: rs, total =>
    if r.length = ncols then loadRowsAux ncols rs (total + 1) else Except.error total

/-- The function `load_csv_to_database` of `sqlite_script.py` (lines 125-185): streams the
data rows (header already consumed), counts `total_rows`, returns it. -/
def sqliteLoad (header : List (List Char)) (rows : List Row) : Except Nat Nat :=
  loadRowsAux header.length rows 0

/-- The function `load_csv_to_database` of `postgresql_script.py` (lines 83-124): same
per-row parameterised insert, same running count. -/
def pgLoad (header : List (List Char)) (rows : List Row) : Except Nat Nat :=
  loadRowsAux header.length rows 0

/-- A MongoDB field value after the load's date coercion: raw text, a parsed
calendar date (year, month, day, at midnight), or Python `None`. -/
inductive MValue where
  | str : List Char → MValue
  | date : Nat → Nat → Nat → MValue
  | null : MValue
deriving DecidableEq, Inhabited

/-- A MongoDB document: insertion-ordered field/value pairs with Python
`dict` semantics. -/
abbrev Doc := List (List Char × MValue)

/-- Whether the first list is a prefix of the second (Python `s.startswith`,
also the base step of the substring test). -/
def leadsWith : List Char → List Char → Bool
  | [], _ => true
  | _ :: _, [] => false
  | a :: as, b :: bs => a == b && leadsWith as bs

/-- Python's substring test `needle in hay`. -/
def occursIn (needle : List Char) : List Char → Bool
  | [] => needle.isEmpty
  | b :: bs => leadsWith needle (b :: bs) || occursIn needle bs

/-- Whether a column name heuristically denotes a date
(`mongodb_script.py` line 96). -/
def isDateCol (name : List Char) : Bool :=
  occursIn "date".toList (pyLower name) || occursIn "data".toList (pyLower name)

/-- Split a character list at `'-'` separators, keeping empty parts. -/
def splitDashAux (cur : List Char) : List Char → List (List Char)
  | [] => [cur.reverse]
  | c :: cs =>
    if c = '-' then cur.reverse :: splitDashAux [] cs else splitDashAux (c :: cur) cs

/-- Split on `'-'`, as `"%Y-%m-%d"` parsing does. -/
def splitDash (s : List Char) : List (List Char) := splitDashAux [] s

/-- Decimal value of a digit string. -/
def digitsToNat (s : List Char) : Nat :=
  s.foldl (fun acc c => acc * 10 + (c.toNat - 48)) 0

/-- Gregorian leap-year test, as `datetime` uses. -/
def yearIsLeap (y : Nat) : Bool := y % 4 == 0 && (y % 100 != 0 || y % 400 == 0)

/-- Number of days in a month, as `datetime` validates. -/
def daysInMonth (y m : Nat) : Nat :=
  if m = 2 then (if yearIsLeap y then 29 else 28)
  else if m = 4 ∨ m = 6 ∨ m = 9 ∨ m = 11 then 30 else 31

/-- Model of `datetime.strptime(value, "%Y-%m-%d")` (`mongodb_script.py` line 98):
three dash-separated digit groups (at most 4/2/2 digits), which must form a
valid calendar date; `none` models the `ValueError` branch. -/
def parseYMD (v : List Char) : Option (Nat × Nat × Nat) :=
  match splitDash v with
  | [ys, ms, ds] =>
    if ys ≠ [] ∧ ms ≠ [] ∧ ds ≠ [] ∧ ys.length ≤ 4 ∧ ms.length ≤ 2 ∧ ds.length ≤ 2 ∧
        ys.all Char.isDigit ∧ ms.all Char.isDigit ∧ ds.all Char.isDigit then
      let y := digitsToNat ys
      let m := digitsToNat ms
      let d := digitsToNat ds
      if 1 ≤ y ∧ y ≤ 9999 ∧ 1 ≤ m ∧ m ≤ 12 ∧ 1 ≤ d ∧ d ≤ daysInMonth y m then
        some (y, m, d)
      else none
    else none
  | _ => none

/-- The value stored for one CSV cell (`mongodb_script.py` lines 93-102): in a
date-like column an empty string becomes `None`, a parseable value becomes a
`datetime`, and a failing parse keeps the raw text; other columns keep the
raw text. -/
def convertValue (colName v : List Char) : MValue :=
  if isDateCol colName then
    if v = [] then MValue.null
    else
      match parseYMD v with
      | some (y, m, d) => MValue.date y m d
      | none => MValue.str v
  else MValue.str v

/-- Python `doc[key] = value`: replace in place if the key exists, else append. -/
def insertKV (k : List Char) (v : MValue) : Doc → Doc
  | [] => [(k, v)]
  | (k₁, v₁) :: rest =>
    if k₁ = k then (k, v) :: rest else (k₁, v₁) :: insertKV k v rest

/-- Python `doc.get(key)` / MongoDB field access. -/
def lookupKV (k : List Char) : Doc → Option MValue
  | [] => none
  | (k₁, v₁) :: rest => if k₁ = k then some v₁ else lookupKV k rest

/-- The document-building loop of `mongodb_script.py` (lines 90-102):
`for i, col_name in enumerate(header): if i < len(row): doc[col_name] = ...`.
Raw (unsanitised) header names key the document; columns beyond the row's
length are skipped. -/
def buildDocAux : List (List Char) → Row → Doc → Doc
  | _, [], doc => doc
  | [], _, doc => doc
  | c :: cs, v :: vs, doc => buildDocAux cs vs (insertKV c (convertValue c v) doc)

/-- The document built for one CSV record (`mongodb_script.py` lines 90-102). -/
def buildDoc (header : List (List Char)) (row : Row) : Doc := buildDocAux header row []

/-- The running `total_rows` counter of `load_csv_to_mongodb`
(`mongodb_script.py` lines 78-105). -/
def mongoLoadCount : List Row → Nat → Nat
  | [], total => total
  | _ :: rs, total => mongoLoadCount rs (total + 1)

/-- The function `load_csv_to_mongodb` of `mongodb_script.py` (lines 66-122): every record
yields one document; the function returns `total_rows`. -/
def mongoLoad (rows : List Row) : Nat := mongoLoadCount rows 0

/-- The documents inserted by `load_csv_to_mongodb`. -/
def mongoDocs (header : List (List Char)) (rows : List Row) : List Doc :=
  rows.map (buildDoc header)

/-- One field-name test of the SQL scripts' column search: the lower-cased
name either equals the primary keyword or contains one of the substrings. -/
def matchesField (primary : List Char) (subs : List (List Char)) (f : List Char) : Bool :=
  pyLower f = primary || subs.any (fun k => occursIn k (pyLower f))

/-- The column-search loop shared by `count_https_websites`
(`sqlite_script.py` lines 205-210), `count_info_domain_websites`
(`duckdb_script.py` lines 117-121) and `count_com_emails`
(`postgresql_script.py` lines 148-152): scan the columns in order and return
the first whose lower-cased name matches; the original name is returned. -/
def fieldMatch (primary : List Char) (subs : List (List Char)) :
    List (List Char) → Option (List Char)
  | [] => none
  | f :: fs => if matchesField primary subs f then some f else fieldMatch primary subs fs

/-- The website-column search of `duckdb_script.py` (lines 117-121):
`col_name == 'website' or 'site' in col_name or 'sito' in col_name`. -/
def findWebsiteColDuck : List (List Char) → Option (List Char) :=
  fieldMatch "website".toList ["site".toList, "sito".toList]

/-- The website-column search of `sqlite_script.py` (lines 205-210):
`col_name == 'website' or 'website' in col_name or 'site' in col_name or
'sito' in col_name`. -/
def findWebsiteColSqlite : List (List Char) → Option (List Char) :=
  fieldMatch "website".toList ["website".toList, "site".toList, "sito".toList]

/-- The email-column search of `postgresql_script.py` (lines 148-152):
`col_name == 'email' or 'email' in col_name or 'mail' in col_name`. -/
def findEmailCol : List (List Char) → Option (List Char) :=
  fieldMatch "email".toList ["email".toList, "mail".toList]

/-- Modelled from the spec: the FieldMatcher contract of section 4.5
instantiated with the keyword set consisting only of `phone` (the spec's
section-8 scenario; no aggregator in `src/` uses this keyword set). -/
def findPhoneCol : List (List Char) → Option (List Char) :=
  fieldMatch "phone".toList ["phone".toList]

/-- The subscription-date field search of `count_2020_subscriptions`
(`mongodb_script.py` lines 142-147): a field whose lower-cased name contains
`subscription` or `iscrizione` and also contains `date` or `data`. -/
def findSubscriptionDateField : List (List Char) → Option (List Char)
  | [] => none
  | f :: fs =>
    if (occursIn "subscription".toList (pyLower f) || occursIn "iscrizione".toList (pyLower f))
        && (occursIn "date".toList (pyLower f) || occursIn "data".toList (pyLower f)) then
      some f
    else findSubscriptionDateField fs

/-- The function `count_https_websites` of `sqlite_script.py` (lines 187-228): locate the
website column; with no match, return 0 without querying; otherwise count the
values of that column starting with `https://`. The destination table is
abstracted as a map from column name to the column's stored values. -/
def count_https_websites (cols : List (List Char)) (table : List Char → List (List Char)) : Nat :=
  match findWebsiteColSqlite cols with
  | none => 0
  | some c => ((table c).filter (fun v => leadsWith "https://".toList v)).length

/-- Lexicographic comparison of (year, month, day) triples, as `datetime`
comparison behaves for dates at midnight. -/
def dateLE (a b : Nat × Nat × Nat) : Bool :=
  decide (a.1 < b.1 ∨ (a.1 = b.1 ∧ (a.2.1 < b.2.1 ∨ (a.2.1 = b.2.1 ∧ a.2.2 ≤ b.2.2))))

/-- The MongoDB range predicate of `count_2020_subscriptions`
(`mongodb_script.py` lines 156-165): a value matches the
`$gte`/`$lte` `datetime(2020,1,1) .. datetime(2020,12,31,23,59,59)` filter
exactly when it is a `datetime` whose date lies in 2020 (type bracketing
excludes strings and `None`; midnight of any 2020 day is inside the bound). -/
def inYear2020 : MValue → Bool
  | MValue.date y m d => dateLE (2020, 1, 1) (y, m, d) && dateLE (y, m, d) (2020, 12, 31)
  | _ => false

/-- The function `count_2020_subscriptions` of `mongodb_script.py` (lines 124-171):
inspect the first document (`find_one`); if there is none, or no field of it
matches, return 0 without querying; otherwise count the documents whose
matched field holds a 2020 date. -/
def count_2020_subscriptions (docs : List Doc) : Nat :=
  match docs.head? with
  | none => 0
  | some d =>
    match findSubscriptionDateField (d.map Prod.fst) with
    | none => 0
    | some f =>
      (docs.filter (fun doc =>
        match lookupKV f doc with
        | some v => inYear2020 v
        | none => false)).length

theorem loadRowsAux_ok (ncols : Nat) (rows : List Row) :
    ∀ t n, loadRowsAux ncols rows t = Except.ok n → n = t + rows.length := by
  induction rows with
  | nil =>
    intro t n h
    simp [loadRowsAux] at h
    simpa using h.symm
  | cons r rs ih =>
    intro t n h
    by_cases hr : r.length = ncols
    · simp only [loadRowsAux, if_pos hr] at h
      have := ih (t + 1) n h
      simp only [List.length_cons]
      omega
    · simp [loadRowsAux, hr] at h

theorem mongoLoadCount_eq (rows : List Row) : ∀ t, mongoLoadCount rows t = t + rows.length := by
  induction rows with
  | nil => intro t; simp [mongoLoadCount]
  | cons r rs ih =>
    intro t
    simp only [mongoLoadCount, List.length_cons, ih]
    omega

/-- Claim C1: whenever the SQLite load completes without error, the reported
total equals the number of data rows; the MongoDB load always reports the
number of data rows. -/
theorem load_count_eq_rows (header : List (List Char)) (rows : List Row) (n : Nat)
    (h : sqliteLoad header rows = Except.ok n) :
    n = rows.length ∧ mongoLoad rows = rows.length := by
  refine ⟨?_, ?_⟩
  · have := loadRowsAux_ok header.length rows 0 n h
    omega
  · simp [mongoLoad, mongoLoadCount_eq]

theorem load_count_eq_rows_witness :
    sqliteLoad ["a".toList] [["x".toList], ["y".toList]] = Except.ok 2 ∧
    2 = ([["x".toList], ["y".toList]] : List Row).length ∧
    mongoLoad [["x".toList], ["y".toList]] = ([["x".toList], ["y".toList]] : List Row).length := by
  have h := load_count_eq_rows ["a".toList] [["x".toList], ["y".toList]] 2 (by rfl)
  exact ⟨by rfl, h.1, h.2⟩

/-- Claim C2 counterexample: the source sanitiser replaces only individual
space characters, so two consecutive spaces become two underscores and a tab
survives unchanged, while the claim's whitespace-run collapse would give a
single underscore in both cases. -/
theorem sanitizer_whitespace_counterexample :
    baseName "A  B".toList = "a__b".toList ∧
    specBaseName "A  B".toList = "a_b".toList ∧
    baseName "A  B".toList ≠ specBaseName "A  B".toList ∧
    baseName "a\tb".toList = "a\tb".toList ∧
    specBaseName "a\tb".toList = "a_b".toList := by decide

/-- Claim C2 (amended): before the reserved-word test the sanitiser
lower-cases the raw name and replaces each space character (U+0020)
individually with one underscore — a run of k spaces yields k underscores and
other whitespace is untouched — so no space character survives sanitisation. -/
theorem sanitizer_space_replacement (raw : List Char) :
    baseName raw = raw.map (fun c => if c = ' ' then '_' else c.toLower) ∧
    ' ' ∉ baseName raw := by
  refine ⟨?_, space_not_mem_baseName raw⟩
  rw [baseName_eq_map]
  induction raw with
  | nil => rfl
  | cons c cs ih => simp only [List.map_cons, normChar_eq_if, ih]

/-- Claim C3: the SQLite column-name sanitiser is idempotent — sanitising an
already-sanitised name changes nothing, because the first pass leaves a
lower-cased, space-free name and no reserved word ends in `_col`. -/
theorem sanitize_idempotent (x : List Char) :
    sqliteSafeName (sqliteSafeName x) = sqliteSafeName x := by
  by_cases h : pyLower (baseName x) ∈ RESERVED_WORDS.map pyLower
  · have hx : sqliteSafeName x = baseName x ++ colSuffix := by
      simp only [sqliteSafeName]
      rw [if_pos h]
    have hmem : baseName x ∈ RESERVED_WORDS := by
      rw [reserved_map_pyLower] at h
      rwa [pyLower_baseName] at h
    have hb : baseName (baseName x ++ colSuffix) = baseName x ++ colSuffix := by
      rw [baseName_append, baseName_idem, baseName_colSuffix]
    have hl : pyLower (baseName (baseName x ++ colSuffix)) = baseName x ++ colSuffix := by
      rw [hb, pyLower_append, pyLower_baseName, pyLower_colSuffix]
    have hnot : baseName x ++ colSuffix ∉ RESERVED_WORDS :=
      reserved_append_colSuffix _ hmem
    rw [hx]
    simp only [sqliteSafeName]
    rw [hl, reserved_map_pyLower, if_neg hnot, hb]
  · have hx : sqliteSafeName x = baseName x := by
      simp only [sqliteSafeName]
      rw [if_neg h]
    have hl : pyLower (baseName (baseName x)) = pyLower (baseName x) := by
      rw [baseName_idem]
    rw [hx]
    simp only [sqliteSafeName]
    rw [hl, if_neg h, baseName_idem]

/-- Claim C4 counterexample: the PostgreSQL sanitiser turns the raw header
name `Select` into the bare reserved word `select` (a keyword of that
destination's query language, and a member of the source's own SQL
reserved-word list) without the `_col` suffix. -/
theorem reserved_suffix_counterexample :
    pgSafeName "Select".toList = "select".toList ∧
    ("select".toList : List Char) ∈ RESERVED_WORDS ∧
    pgSafeName "Select".toList ≠ "select".toList ++ colSuffix := by decide

/-- Claim C4 (amended): in the SQLite backend — the only one with a
reserved-word set — a raw name whose sanitised form is reserved receives the
`_col` suffix, and the resulting storage name is no longer a reserved word,
so the (quoted) schema declaration it is used in is accepted. The PostgreSQL
backend performs no reserved-word handling. -/
theorem reserved_suffix_sqlite (raw : List Char)
    (h : pyLower (baseName raw) ∈ RESERVED_WORDS.map pyLower) :
    sqliteSafeName raw = baseName raw ++ colSuffix ∧
    sqliteSafeName raw ∉ RESERVED_WORDS := by
  have hmem : baseName raw ∈ RESERVED_WORDS := by
    rw [reserved_map_pyLower] at h
    rwa [pyLower_baseName] at h
  have hx : sqliteSafeName raw = baseName raw ++ colSuffix := by
    simp only [sqliteSafeName]
    rw [if_pos h]
  refine ⟨hx, ?_⟩
  rw [hx]
  exact reserved_append_colSuffix _ hmem

theorem reserved_suffix_sqlite_witness :
    pyLower (baseName "Select".toList) ∈ RESERVED_WORDS.map pyLower ∧
    sqliteSafeName "Select".toList = baseName "Select".toList ++ colSuffix ∧
    sqliteSafeName "Select".toList ∉ RESERVED_WORDS := by
  have h := reserved_suffix_sqlite "Select".toList (by decide)
  exact ⟨by decide, h.1, h.2⟩

/-- Claim C5 counterexample: with columns `campsite` then `website`, the
second column equals the primary keyword `website` exactly while the first
matches only by the substring `site`; the DuckDB column search nevertheless
returns `campsite`, because scan position outranks match kind. -/
theorem field_matcher_order_counterexample :
    findWebsiteColDuck ["campsite".toList, "website".toList] = some "campsite".toList ∧
    pyLower "website".toList = "website".toList ∧
    pyLower "campsite".toList ≠ "website".toList ∧
    occursIn "site".toList (pyLower "campsite".toList) = true := by decide

/-- Claim C5 (amended): the field matcher scans the fields in their given
order and returns the first field matching any criterion (exact equality with
the primary keyword or containment of one of the substrings); field order,
not the kind of criterion, decides between two matching fields. -/
theorem field_matcher_first_match (primary : List Char) (subs : List (List Char))
    (pre post : List (List Char)) (c : List Char)
    (hpre : ∀ f ∈ pre, matchesField primary subs f = false)
    (hc : matchesField primary subs c = true) :
    fieldMatch primary subs (pre ++ c :: post) = some c := by
  induction pre with
  | nil => simp [fieldMatch, hc]
  | cons p ps ih =>
    have hp := hpre p (List.mem_cons_self p ps)
    simp only [List.cons_append, fieldMatch, hp]
    simp only [Bool.false_eq_true, if_false]
    exact ih fun f hf => hpre f (List.mem_cons_of_mem p hf)

theorem field_matcher_first_match_witness :
    (∀ f ∈ ["name".toList], matchesField "website".toList ["site".toList, "sito".toList] f = false) ∧
    matchesField "website".toList ["site".toList, "sito".toList] "campsite".toList = true ∧
    fieldMatch "website".toList ["site".toList, "sito".toList]
      (["name".toList] ++ "campsite".toList :: ["website".toList]) = some "campsite".toList := by
  refine ⟨by decide, by decide, ?_⟩
  exact field_matcher_first_match _ _ ["name".toList] ["website".toList] "campsite".toList
    (by decide) (by decide)

/-- Claim C6: when the column/field search finds nothing, the SQLite https
counter and the MongoDB 2020-subscription counter both return 0 — for any
table contents, so no query is consulted — instead of failing. -/
theorem no_match_zero_count (cols : List (List Char)) (table : List Char → List (List Char))
    (docs : List Doc) (d : Doc)
    (h1 : findWebsiteColSqlite cols = none)
    (h2 : docs.head? = some d)
    (h3 : findSubscriptionDateField (d.map Prod.fst) = none) :
    count_https_websites cols table = 0 ∧ count_2020_subscriptions docs = 0 := by
  constructor
  · simp [count_https_websites, h1]
  · simp [count_2020_subscriptions, h2, h3]

theorem no_match_zero_count_witness :
    findWebsiteColSqlite ["name".toList] = none ∧
    ([[("name".toList, MValue.str "x".toList)]] : List Doc).head? =
      some [("name".toList, MValue.str "x".toList)] ∧
    findSubscriptionDateField (([("name".toList, MValue.str "x".toList)] : Doc).map Prod.fst) =
      none ∧
    count_https_websites ["name".toList] (fun _ => ["https://x".toList]) = 0 ∧
    count_2020_subscriptions [[("name".toList, MValue.str "x".toList)]] = 0 := by
  have h := no_match_zero_count ["name".toList] (fun _ => ["https://x".toList])
    [[("name".toList, MValue.str "x".toList)]] [("name".toList, MValue.str "x".toList)]
    (by decide) (by decide) (by decide)
  exact ⟨by decide, by decide, by decide, h.1, h.2⟩

/-- Claim C7 counterexample: sanitising the raw header name `Sign-up Date`
yields `sign-up_date` — the hyphen is preserved, only the space becomes an
underscore — not the claimed `sign_up_date`; the SQLite sanitiser agrees. -/
theorem header_sanitize_counterexample :
    pgSafeName "Sign-up Date".toList = "sign-up_date".toList ∧
    ("sign-up_date".toList : List Char) ≠ "sign_up_date".toList ∧
    sqliteSafeName "Sign-up Date".toList = "sign-up_date".toList := by decide

/-- Claim C7 (amended): the header Name / Email Address / Sign-up Date
sanitises to name, email_address, sign-up_date; matching the email keyword
set over that field list returns email_address, and matching the phone
keyword set returns no field. -/
theorem header_scenario :
    (["Name", "Email Address", "Sign-up Date"].map fun s => pgSafeName s.toList) =
      ["name".toList, "email_address".toList, "sign-up_date".toList] ∧
    findEmailCol ["name".toList, "email_address".toList, "sign-up_date".toList] =
      some "email_address".toList ∧
    findPhoneCol ["name".toList, "email_address".toList, "sign-up_date".toList] = none := by
  decide

/-- Claim C8: with a header-only source (zero data rows) every load returns 0
without error, and the aggregate queries report 0: the MongoDB counter finds
no representative document, and the SQLite counter counts over an empty
table. -/
theorem header_only_source (header : List (List Char)) :
    sqliteLoad header [] = Except.ok 0 ∧
    mongoLoad [] = 0 ∧
    count_2020_subscriptions [] = 0 ∧
    ∀ cols, count_https_websites cols (fun _ => []) = 0 := by
  refine ⟨rfl, rfl, rfl, ?_⟩
  intro cols
  cases h : findWebsiteColSqlite cols <;> simp [count_https_websites, h]

theorem mem_keys_insertKV (a k : List Char) (v : MValue) (d : Doc) :
    a ∈ (insertKV k v d).map Prod.fst ↔ a = k ∨ a ∈ d.map Prod.fst := by
  induction d with
  | nil => simp [insertKV]
  | cons p rest ih =>
    obtain ⟨k₁, v₁⟩ := p
    by_cases h : k₁ = k
    · subst h
      simp [insertKV]
    · simp [insertKV, h, ih]
      tauto

theorem lookupKV_isSome_iff (k : List Char) (d : Doc) :
    (lookupKV k d).isSome ↔ k ∈ d.map Prod.fst := by
  induction d with
  | nil => simp [lookupKV]
  | cons p rest ih =>
    obtain ⟨k₁, v₁⟩ := p
    by_cases h : k₁ = k
    · subst h
      simp [lookupKV]
    · simp [lookupKV, h, ih]
      intro hk
      exact absurd hk.symm h

theorem mem_keys_buildDocAux (cs : List (List Char)) (vs : Row) (doc : Doc) (a : List Char) :
    a ∈ (buildDocAux cs vs doc).map Prod.fst ↔
      a ∈ doc.map Prod.fst ∨ a ∈ cs.take vs.length := by
  induction cs generalizing vs doc with
  | nil => cases vs <;> simp [buildDocAux]
  | cons c cs' ih =>
    cases vs with
    | nil => simp [buildDocAux]
    | cons v vs' =>
      simp only [buildDocAux, ih, mem_keys_insertKV, List.length_cons, List.take_succ_cons,
        List.mem_cons]
      tauto

/-- Claim C9 counterexample: with header `a, b` and the one-field record `x`,
the SQLite and PostgreSQL loads abort with a binding error (zero rows
loaded) instead of loading the record; only the MongoDB load stores the
record, with field `b` absent and field `a` kept. -/
theorem short_row_rejected_counterexample :
    sqliteLoad ["a".toList, "b".toList] [["x".toList]] = Except.error 0 ∧
    pgLoad ["a".toList, "b".toList] [["x".toList]] = Except.error 0 ∧
    lookupKV "b".toList (buildDoc ["a".toList, "b".toList] ["x".toList]) = none ∧
    lookupKV "a".toList (buildDoc ["a".toList, "b".toList] ["x".toList]) =
      some (MValue.str "x".toList) := by
  refine ⟨rfl, rfl, by decide, by decide⟩

/-- Claim C9 (amended): only the document-store load treats a short record's
missing trailing fields as absent — a field name is present in the stored
document exactly when it occurs among the first `row.length` header columns —
while the relational loads (SQLite, PostgreSQL) bind one placeholder per
header column and abort with an error on any record of different arity. -/
theorem short_row_semantics (header : List (List Char)) (row : Row) (r : Row)
    (rs : List Row) (k : List Char) (h : r.length ≠ header.length) :
    ((lookupKV k (buildDoc header row)).isSome ↔ k ∈ header.take row.length) ∧
    sqliteLoad header (r :: rs) = Except.error 0 ∧
    pgLoad header (r :: rs) = Except.error 0 := by
  refine ⟨?_, ?_, ?_⟩
  · rw [buildDoc, lookupKV_isSome_iff, mem_keys_buildDocAux]
    simp
  · simp [sqliteLoad, loadRowsAux, h]
  · simp [pgLoad, loadRowsAux, h]

theorem short_row_semantics_witness :
    (["x".toList] : Row).length ≠ (["a".toList, "b".toList] : List (List Char)).length ∧
    ((lookupKV "b".toList (buildDoc ["a".toList, "b".toList] ["x".toList])).isSome ↔
      "b".toList ∈ (["a".toList, "b".toList] : List (List Char)).take
        (["x".toList] : Row).length) ∧
    sqliteLoad ["a".toList, "b".toList] [["x".toList]] = Except.error 0 ∧
    pgLoad ["a".toList, "b".toList] [["x".toList]] = Except.error 0 := by
  have h := short_row_semantics ["a".toList, "b".toList] ["x".toList] ["x".toList] []
    "b".toList (by decide)
  exact ⟨by decide, h.1, h.2.1, h.2.2⟩

/-- Claim C10: in a date-like column of the document-store load, an empty
string is stored as `None` — not as raw text and not as a date — while a
non-empty value that fails the fixed-format parse is kept as raw text and a
parseable one becomes a date. -/
theorem date_value_conversion (name v : List Char) (h : isDateCol name = true) :
    (v = [] → convertValue name v = MValue.null) ∧
    (v ≠ [] → parseYMD v = none → convertValue name v = MValue.str v) ∧
    (∀ y m d, v ≠ [] → parseYMD v = some (y, m, d) → convertValue name v = MValue.date y m d) := by
  refine ⟨?_, ?_, ?_⟩
  · intro hv
    subst hv
    simp [convertValue, h]
  · intro hv hp
    simp [convertValue, h, hv, hp]
  · intro y m d hv hp
    simp [convertValue, h, hv, hp]

theorem date_value_conversion_witness :
    isDateCol "Subscription Date".toList = true ∧
    convertValue "Subscription Date".toList [] = MValue.null ∧
    convertValue "Subscription Date".toList "oops".toList = MValue.str "oops".toList ∧
    convertValue "Subscription Date".toList "2020-06-15".toList = MValue.date 2020 6 15 := by
  have h := date_value_conversion "Subscription Date".toList "oops".toList (by decide)
  have h2 := date_value_conversion "Subscription Date".toList "2020-06-15".toList (by decide)
  have h0 := date_value_conversion "Subscription Date".toList [] (by decide)
  exact ⟨by decide, h0.1 rfl, h.2.1 (by decide) (by decide),
    h2.2.2 2020 6 15 (by decide) (by decide)⟩

end BigData
